import Mathlib

/-!
Verification of the cephfs binding (`src/cephfs/cephfs.go`): the error
domain (`getError` / `CephFSError`), the mount-handle operations
(`Mount`, `IsMounted`), and the MDS command marshaler (`mdsCommand`).

Foreign (cgo) calls are modelled as explicit parameters; `mdsCommand`
additionally records an event trace of every transient native
allocation, the foreign call itself, and every copy/free of native
buffers, so that the resource-lifetime properties of the marshaler are
statable.
-/

namespace Cephfs

/-- Go `type CephFSError int`: a structured error carrying the raw numeric
result code of a foreign call. -/
structure CephFSError where
  code : Int
deriving DecidableEq, Repr

/-- Source `getError(e C.int) error`: `nil` for code zero, otherwise the code
wrapped as a `CephFSError`. -/
def getError (e : Int) : Option CephFSError :=
  if e = 0 then none else some ⟨e⟩

/-- The struct `MountInfo` holds the opaque native `ceph_mount_info` reference,
modelled as a bare identifier. -/
structure MountInfo where
  mount : Nat
deriving DecidableEq, Repr

/-- The arguments a mount operation passes across the boundary:
the native context reference and the root-path argument
(`none` models the C `NULL` pointer). -/
structure MountCall where
  ctx : Nat
  root : Option String
deriving DecidableEq, Repr

/-- Source `func (mount *MountInfo) Mount() error`: calls
`C.ceph_mount(mount.mount, nil)` and maps the result through
`getError`.  The foreign `ceph_mount` is a parameter; the result
records the handle state after the call, the mapped error, and the
arguments passed to the foreign call. -/
def MountInfo.Mount (m : MountInfo) (ceph_mount : Nat → Option String → Int) :
    MountInfo × Option CephFSError × MountCall :=
  (m, getError (ceph_mount m.mount none), ⟨m.mount, none⟩)

/-- Source `func (mount *MountInfo) IsMounted() bool`: calls
`C.ceph_is_mounted(mount.mount)` and returns `ret == 1`. -/
def MountInfo.IsMounted (m : MountInfo) (ceph_is_mounted : Nat → Int) : Bool :=
  ceph_is_mounted m.mount == 1

/-- Events recorded by the marshaler model: transient native
allocations (`C.CString`), the foreign `ceph_mds_command` call (with
the input-buffer length passed to it), copies out of native output
buffers (`C.GoStringN` / `C.GoBytes`), and frees (`C.free`). -/
inductive Ev where
  | allocSpec : Ev
  | allocArg : Nat → Ev
  | allocInBuf : Ev
  | call : Nat → Ev
  | copyOuts : Ev
  | freeOuts : Ev
  | copyOutBuf : Ev
  | freeOutBuf : Ev
  | freeInBuf : Ev
  | freeArg : Nat → Ev
  | freeSpec : Ev
deriving DecidableEq, Repr

/-- The transient input allocations of one invocation: target spec,
one per argument, input buffer. -/
def Ev.isTransientAlloc : Ev → Bool
  | .allocSpec => true
  | .allocArg _ => true
  | .allocInBuf => true
  | _ => false

/-- The frees of the transient input allocations. -/
def Ev.isTransientFree : Ev → Bool
  | .freeSpec => true
  | .freeArg _ => true
  | .freeInBuf => true
  | _ => false

/-- Recognizes the foreign-call event. -/
def Ev.isCall : Ev → Bool
  | .call _ => true
  | _ => false

/-- What the foreign `ceph_mds_command` call fills into its output
parameters: the numeric result, the output buffer (its reported
`outbuflen` is the byte length), and the status string (its reported
`outslen` is the byte length). -/
structure MdsReply where
  ret : Int
  outbuf : List UInt8
  outs : List UInt8
deriving DecidableEq, Repr

/-- The values `mdsCommand` returns to its caller, plus the recorded
event trace. -/
structure MdsOutcome where
  buffer : List UInt8
  info : List UInt8
  err : Option CephFSError
  events : List Ev
deriving DecidableEq, Repr

/-- Either a normal return, or a Go runtime panic (index out of range)
with the events that happened before and during unwinding (deferred
frees still run on panic). -/
inductive MdsResult where
  | panicked : List Ev → MdsResult
  | ok : MdsOutcome → MdsResult
deriving DecidableEq, Repr

/-- Models `strlen` on the null-terminated native copy a `C.CString` produces:
the number of bytes before the first zero byte.  `mdsCommand` does NOT
use this for the input-buffer length. -/
def cStrlen : List UInt8 → Nat
  | [] => 0
  | b :: bs => if b = 0 then 0 else cStrlen bs + 1

/-- Source `func (mount *MountInfo) mdsCommand(mdsSpec string, args [][]byte,
inputBuffer []byte) ([]byte, string, error)`.

Translation notes, line by line against the source:
* `spec := C.CString(mdsSpec); defer C.free(spec)` — `allocSpec`,
  with `freeSpec` run last among the deferred frees (defers are LIFO).
* the loop `argv[i] = C.CString(string(arg))` — `allocArg i` for
  `i < argc`, freed by the second deferred closure (`freeArg i`).
* `inbuf := C.CString(string(inputBuffer)); inbufLen :=
  len(inputBuffer); defer C.free(inbuf)` — `allocInBuf` / `freeInBuf`;
  the length passed to the call is `len(inputBuffer)`, not the
  `strlen` of the marshaled string.
* `&argv[0]` panics with index out of range when `argc = 0`
  (Go bounds check on the empty slice); the deferred frees still run.
* after the call: if `outslen > 0`, copy (`C.GoStringN`) then free the
  native status string; if `outbuflen > 0`, copy (`C.GoBytes`) then
  free the native output buffer.
* `if ret != 0 { return nil, info, getError(ret) }` else
  `return buffer, info, nil`. -/
def mdsCommand (_mdsSpec : String) (args : List (List UInt8))
    (inputBuffer : List UInt8) (reply : MdsReply) : MdsResult :=
  let argc := args.length
  let allocs := Ev.allocSpec :: ((List.range argc).map Ev.allocArg ++ [Ev.allocInBuf])
  let frees := Ev.freeInBuf :: ((List.range argc).map Ev.freeArg ++ [Ev.freeSpec])
  if argc = 0 then
    MdsResult.panicked (allocs ++ frees)
  else
    let inbufLen := inputBuffer.length
    let outsEvs := if 0 < reply.outs.length then [Ev.copyOuts, Ev.freeOuts] else []
    let info := if 0 < reply.outs.length then reply.outs else []
    let outbufEvs := if 0 < reply.outbuf.length then [Ev.copyOutBuf, Ev.freeOutBuf] else []
    let buffer := if 0 < reply.outbuf.length then reply.outbuf else []
    let events := allocs ++ Ev.call inbufLen :: (outsEvs ++ outbufEvs ++ frees)
    if reply.ret ≠ 0 then
      MdsResult.ok ⟨[], info, getError reply.ret, events⟩
    else
      MdsResult.ok ⟨buffer, info, none, events⟩

/-- C1: the error-mapping function returns no error for code zero and,
for every non-zero code, a structured error whose numeric code equals
the input. -/
theorem getError_zero_iff_code (e : Int) :
    (e = 0 → getError e = none) ∧
      (e ≠ 0 → ∃ c : CephFSError, getError e = some c ∧ c.code = e) := by
  constructor
  · intro h; simp [getError, h]
  · intro h; exact ⟨⟨e⟩, by simp [getError, h], rfl⟩

/-- Witness for C1 at codes `0` and `-2`. -/
theorem getError_zero_iff_code_witness :
    getError 0 = none ∧ ∃ c : CephFSError, getError (-2) = some c ∧ c.code = -2 :=
  ⟨(getError_zero_iff_code 0).1 rfl, (getError_zero_iff_code (-2)).2 (by decide)⟩

/-- C6: `Mount` always passes a null root path to the foreign
`ceph_mount` call — no sub-path root can be supplied. -/
theorem Mount_root_none (m : MountInfo) (ceph_mount : Nat → Option String → Int) :
    (m.Mount ceph_mount).2.2.root = none := rfl

/-- C7: if the foreign `ceph_mount` call fails (non-zero result), the
stored native reference of the handle is unchanged. -/
theorem Mount_frame (m : MountInfo) (ceph_mount : Nat → Option String → Int)
    (_h : ceph_mount m.mount none ≠ 0) :
    (m.Mount ceph_mount).1 = m := rfl

/-- A concrete always-failing foreign `ceph_mount`, for the C7 witness. -/
def failingCephMount : Nat → Option String → Int := fun _ _ => -5

/-- Witness for C7: a failing foreign mount leaves the handle intact. -/
theorem Mount_frame_witness :
    failingCephMount (MountInfo.mk 7).mount none ≠ 0 ∧
      ((MountInfo.mk 7).Mount failingCephMount).1 = MountInfo.mk 7 :=
  ⟨by decide, Mount_frame (MountInfo.mk 7) failingCephMount (by decide)⟩

/-- C10: the mounted-status query returns `true` exactly when the
foreign `ceph_is_mounted` call returns `1`; every other value reads as
not mounted and no error is surfaced (the return type is a bare
boolean). -/
theorem IsMounted_iff_one (m : MountInfo) (ceph_is_mounted : Nat → Int) :
    m.IsMounted ceph_is_mounted = true ↔ ceph_is_mounted m.mount = 1 := by
  simp [MountInfo.IsMounted]

/-- Unfolding lemma: for a non-empty argument list, `mdsCommand`
returns normally, with the outcome and event trace written out. -/
theorem mdsCommand_eq_ok (mdsSpec : String) (args : List (List UInt8))
    (input : List UInt8) (reply : MdsReply) (h : args ≠ []) :
    mdsCommand mdsSpec args input reply = MdsResult.ok
      { buffer := if reply.ret ≠ 0 then []
          else if 0 < reply.outbuf.length then reply.outbuf else [],
        info := if 0 < reply.outs.length then reply.outs else [],
        err := if reply.ret ≠ 0 then getError reply.ret else none,
        events :=
          (Ev.allocSpec :: ((List.range args.length).map Ev.allocArg ++ [Ev.allocInBuf])) ++
            Ev.call input.length ::
              ((if 0 < reply.outs.length then [Ev.copyOuts, Ev.freeOuts] else []) ++
                (if 0 < reply.outbuf.length then [Ev.copyOutBuf, Ev.freeOutBuf] else []) ++
                (Ev.freeInBuf ::
                  ((List.range args.length).map Ev.freeArg ++ [Ev.freeSpec]))) } := by
  have hl : ¬ args.length = 0 := by simpa using h
  by_cases hr : reply.ret ≠ 0 <;> simp [mdsCommand, hl, hr]

/-- C9: with an empty argument sequence the marshaler panics (index
out of range at `&argv[0]`); the deferred frees of the spec string and
input buffer still run during unwinding. -/
theorem mdsCommand_empty_args_panics (mdsSpec : String) (input : List UInt8)
    (reply : MdsReply) :
    mdsCommand mdsSpec [] input reply =
      MdsResult.panicked [Ev.allocSpec, Ev.allocInBuf, Ev.freeInBuf, Ev.freeSpec] := rfl

theorem freeArg_injective : Function.Injective Ev.freeArg := fun a b h => by
  injection h

theorem filter_isCall_mapAlloc (l : List Nat) :
    ((l.map Ev.allocArg).filter Ev.isCall) = [] :=
  List.filter_eq_nil_iff.2 (by
    intro a ha
    obtain ⟨i, _, rfl⟩ := List.mem_map.1 ha
    simp [Ev.isCall])

theorem filter_isCall_mapFree (l : List Nat) :
    ((l.map Ev.freeArg).filter Ev.isCall) = [] :=
  List.filter_eq_nil_iff.2 (by
    intro a ha
    obtain ⟨i, _, rfl⟩ := List.mem_map.1 ha
    simp [Ev.isCall])

theorem filter_tAlloc_mapAlloc (l : List Nat) :
    ((l.map Ev.allocArg).filter Ev.isTransientAlloc) = l.map Ev.allocArg :=
  List.filter_eq_self.2 (by
    intro a ha
    obtain ⟨i, _, rfl⟩ := List.mem_map.1 ha
    rfl)

theorem filter_tAlloc_mapFree (l : List Nat) :
    ((l.map Ev.freeArg).filter Ev.isTransientAlloc) = [] :=
  List.filter_eq_nil_iff.2 (by
    intro a ha
    obtain ⟨i, _, rfl⟩ := List.mem_map.1 ha
    simp [Ev.isTransientAlloc])

theorem filter_tFree_mapAlloc (l : List Nat) :
    ((l.map Ev.allocArg).filter Ev.isTransientFree) = [] :=
  List.filter_eq_nil_iff.2 (by
    intro a ha
    obtain ⟨i, _, rfl⟩ := List.mem_map.1 ha
    simp [Ev.isTransientFree])

theorem count_freeSpec_mapAlloc (l : List Nat) :
    (l.map Ev.allocArg).count Ev.freeSpec = 0 :=
  List.count_eq_zero.2 (by simp)

theorem count_freeSpec_mapFree (l : List Nat) :
    (l.map Ev.freeArg).count Ev.freeSpec = 0 :=
  List.count_eq_zero.2 (by simp)

theorem count_freeInBuf_mapAlloc (l : List Nat) :
    (l.map Ev.allocArg).count Ev.freeInBuf = 0 :=
  List.count_eq_zero.2 (by simp)

theorem count_freeInBuf_mapFree (l : List Nat) :
    (l.map Ev.freeArg).count Ev.freeInBuf = 0 :=
  List.count_eq_zero.2 (by simp)

theorem count_freeArg_mapAlloc (l : List Nat) (i : Nat) :
    (l.map Ev.allocArg).count (Ev.freeArg i) = 0 :=
  List.count_eq_zero.2 (by simp)

theorem count_freeArg_mapFree_range (n i : Nat) (h : i < n) :
    ((List.range n).map Ev.freeArg).count (Ev.freeArg i) = 1 := by
  rw [List.count_map_of_injective _ _ freeArg_injective]
  exact List.count_eq_one_of_mem (List.nodup_range n) (List.mem_range.2 h)

/-- C3: when the foreign call returns a non-zero result, `mdsCommand`
returns a nil output payload, whatever status string was copied out
(possibly empty), and a structured error carrying that result code — a
success payload is never returned alongside an error. -/
theorem mdsCommand_failure_shape (mdsSpec : String) (args : List (List UInt8))
    (input : List UInt8) (reply : MdsReply) (h : args ≠ []) (hr : reply.ret ≠ 0) :
    ∃ o : MdsOutcome, mdsCommand mdsSpec args input reply = MdsResult.ok o ∧
      o.buffer = [] ∧
      o.info = (if 0 < reply.outs.length then reply.outs else []) ∧
      o.err = some ⟨reply.ret⟩ := by
  refine ⟨_, mdsCommand_eq_ok mdsSpec args input reply h, ?_, rfl, ?_⟩
  · simp [hr]
  · simp [hr, getError]

/-- Witness for C3: a failing call with a non-empty status string. -/
theorem mdsCommand_failure_shape_witness :
    ([[115]] : List (List UInt8)) ≠ [] ∧ (MdsReply.mk (-22) [1, 2] [111]).ret ≠ 0 ∧
      ∃ o : MdsOutcome,
        mdsCommand "mds.a" [[115]] [7] (MdsReply.mk (-22) [1, 2] [111]) = MdsResult.ok o ∧
          o.buffer = [] ∧
          o.info = (if 0 < (MdsReply.mk (-22) [1, 2] [111]).outs.length
            then (MdsReply.mk (-22) [1, 2] [111]).outs else []) ∧
          o.err = some ⟨(MdsReply.mk (-22) [1, 2] [111]).ret⟩ :=
  ⟨by decide, by decide,
    mdsCommand_failure_shape "mds.a" [[115]] [7] (MdsReply.mk (-22) [1, 2] [111])
      (by decide) (by decide)⟩

/-- C4: when the foreign layer reports a positive status-string
length, the returned info string equals the native status buffer
content (hence has exactly the reported length), and the copy event
happens before the free of the native status buffer. -/
theorem mdsCommand_info_exact_copy (mdsSpec : String) (args : List (List UInt8))
    (input : List UInt8) (reply : MdsReply) (h : args ≠ [])
    (ho : 0 < reply.outs.length) :
    ∃ o : MdsOutcome, mdsCommand mdsSpec args input reply = MdsResult.ok o ∧
      o.info = reply.outs ∧ o.info.length = reply.outs.length ∧
      ∃ pre post, o.events = pre ++ Ev.copyOuts :: Ev.freeOuts :: post := by
  refine ⟨_, mdsCommand_eq_ok mdsSpec args input reply h, ?_, ?_, ?_⟩
  · simp [ho]
  · simp [ho]
  · exact ⟨(Ev.allocSpec :: ((List.range args.length).map Ev.allocArg ++ [Ev.allocInBuf])) ++
        [Ev.call input.length],
      (if 0 < reply.outbuf.length then [Ev.copyOutBuf, Ev.freeOutBuf] else []) ++
        (Ev.freeInBuf :: ((List.range args.length).map Ev.freeArg ++ [Ev.freeSpec])),
      by simp [ho]⟩

/-- Witness for C4: status string of length two, on a success reply. -/
theorem mdsCommand_info_exact_copy_witness :
    ([[115]] : List (List UInt8)) ≠ [] ∧
      0 < (MdsReply.mk 0 [] [104, 105]).outs.length ∧
      ∃ o : MdsOutcome,
        mdsCommand "mds.a" [[115]] [] (MdsReply.mk 0 [] [104, 105]) = MdsResult.ok o ∧
          o.info = (MdsReply.mk 0 [] [104, 105]).outs ∧
          o.info.length = (MdsReply.mk 0 [] [104, 105]).outs.length ∧
          ∃ pre post, o.events = pre ++ Ev.copyOuts :: Ev.freeOuts :: post :=
  ⟨by decide, by decide,
    mdsCommand_info_exact_copy "mds.a" [[115]] [] (MdsReply.mk 0 [] [104, 105])
      (by decide) (by decide)⟩

/-- C5: when the foreign layer reports a zero output-buffer length,
the returned payload is empty and the native output-buffer pointer is
never dereferenced (no copy event for it appears in the trace). -/
theorem mdsCommand_zero_outbuf (mdsSpec : String) (args : List (List UInt8))
    (input : List UInt8) (reply : MdsReply) (h : args ≠ [])
    (hb : reply.outbuf.length = 0) :
    ∃ o : MdsOutcome, mdsCommand mdsSpec args input reply = MdsResult.ok o ∧
      o.buffer = [] ∧ Ev.copyOutBuf ∉ o.events := by
  refine ⟨_, mdsCommand_eq_ok mdsSpec args input reply h, ?_, ?_⟩
  · by_cases hr : reply.ret ≠ 0 <;> simp [hr, hb]
  · by_cases ho : 0 < reply.outs.length <;> simp [ho, hb]

/-- Witness for C5: an error reply with no output buffer. -/
theorem mdsCommand_zero_outbuf_witness :
    ([[115]] : List (List UInt8)) ≠ [] ∧
      (MdsReply.mk (-5) [] [104]).outbuf.length = 0 ∧
      ∃ o : MdsOutcome,
        mdsCommand "mds.a" [[115]] [7] (MdsReply.mk (-5) [] [104]) = MdsResult.ok o ∧
          o.buffer = [] ∧ Ev.copyOutBuf ∉ o.events :=
  ⟨by decide, by decide,
    mdsCommand_zero_outbuf "mds.a" [[115]] [7] (MdsReply.mk (-5) [] [104])
      (by decide) (by decide)⟩

/-- C8: the input-buffer length passed to the foreign call is the byte
length of the caller payload (`len(inputBuffer)`), tracked separately
from the null-terminated marshaled string — embedded zero bytes do not
shorten it (contrast `cStrlen`). -/
theorem mdsCommand_inbuf_length (mdsSpec : String) (args : List (List UInt8))
    (input : List UInt8) (reply : MdsReply) (h : args ≠ []) :
    ∃ o : MdsOutcome, mdsCommand mdsSpec args input reply = MdsResult.ok o ∧
      o.events.filter Ev.isCall = [Ev.call input.length] := by
  refine ⟨_, mdsCommand_eq_ok mdsSpec args input reply h, ?_⟩
  by_cases ho : 0 < reply.outs.length <;> by_cases hb : 0 < reply.outbuf.length <;>
    simp [ho, hb, List.filter_append, filter_isCall_mapAlloc, filter_isCall_mapFree,
      Ev.isCall]

/-- Witness for C8: the payload `[49, 0, 50]` has an embedded zero
byte, so its `strlen` is 1, yet the length passed to the call is 3. -/
theorem mdsCommand_inbuf_length_witness :
    cStrlen [49, 0, 50] = 1 ∧ ([49, 0, 50] : List UInt8).length = 3 ∧
      ([[115]] : List (List UInt8)) ≠ [] ∧
      ∃ o : MdsOutcome,
        mdsCommand "mds.a" [[115]] [49, 0, 50] (MdsReply.mk 0 [] []) = MdsResult.ok o ∧
          o.events.filter Ev.isCall = [Ev.call ([49, 0, 50] : List UInt8).length] :=
  ⟨by decide, by decide, by decide,
    mdsCommand_inbuf_length "mds.a" [[115]] [49, 0, 50] (MdsReply.mk 0 [] []) (by decide)⟩

/-- C2: for N ≥ 1 arguments, exactly N + 2 transient native
allocations are made (target spec, one per argument, input buffer) and
each one is freed exactly once, after the foreign call (no transient
free precedes the call event) — independent of the numeric result,
which is universally quantified here. -/
theorem mdsCommand_transient_cleanup (mdsSpec : String) (args : List (List UInt8))
    (input : List UInt8) (reply : MdsReply) (h : args ≠ []) :
    ∃ o : MdsOutcome, mdsCommand mdsSpec args input reply = MdsResult.ok o ∧
      (o.events.filter Ev.isTransientAlloc).length = args.length + 2 ∧
      o.events.count Ev.freeSpec = 1 ∧
      o.events.count Ev.freeInBuf = 1 ∧
      (∀ i < args.length, o.events.count (Ev.freeArg i) = 1) ∧
      ∃ pre post, o.events = pre ++ Ev.call input.length :: post ∧
        pre.filter Ev.isTransientFree = [] := by
  refine ⟨_, mdsCommand_eq_ok mdsSpec args input reply h, ?_, ?_, ?_, ?_, ?_⟩
  · by_cases ho : 0 < reply.outs.length <;> by_cases hb : 0 < reply.outbuf.length <;>
      simp [ho, hb, List.filter_append, filter_tAlloc_mapAlloc, filter_tAlloc_mapFree,
        Ev.isTransientAlloc]
  · by_cases ho : 0 < reply.outs.length <;> by_cases hb : 0 < reply.outbuf.length <;>
      simp [ho, hb, List.count_append, List.count_cons, count_freeSpec_mapAlloc,
        count_freeSpec_mapFree]
  · by_cases ho : 0 < reply.outs.length <;> by_cases hb : 0 < reply.outbuf.length <;>
      simp [ho, hb, List.count_append, List.count_cons, count_freeInBuf_mapAlloc,
        count_freeInBuf_mapFree]
  · intro i hi
    by_cases ho : 0 < reply.outs.length <;> by_cases hb : 0 < reply.outbuf.length <;>
      simp [ho, hb, List.count_append, List.count_cons, count_freeArg_mapAlloc,
        count_freeArg_mapFree_range _ _ hi]
  · exact ⟨Ev.allocSpec :: ((List.range args.length).map Ev.allocArg ++ [Ev.allocInBuf]),
      (if 0 < reply.outs.length then [Ev.copyOuts, Ev.freeOuts] else []) ++
        (if 0 < reply.outbuf.length then [Ev.copyOutBuf, Ev.freeOutBuf] else []) ++
        (Ev.freeInBuf :: ((List.range args.length).map Ev.freeArg ++ [Ev.freeSpec])),
      rfl,
      by simp [List.filter_append, filter_tFree_mapAlloc, Ev.isTransientFree]⟩

/-- Witness for C2: one argument, a failing reply (code −22) with
both a status string and an output buffer, so all frees are exercised
on the failure path. -/
theorem mdsCommand_transient_cleanup_witness :
    ([[115]] : List (List UInt8)) ≠ [] ∧
      ∃ o : MdsOutcome,
        mdsCommand "mds.a" [[115]] [7] (MdsReply.mk (-22) [1, 2] [111]) = MdsResult.ok o ∧
          (o.events.filter Ev.isTransientAlloc).length =
            ([[115]] : List (List UInt8)).length + 2 ∧
          o.events.count Ev.freeSpec = 1 ∧
          o.events.count Ev.freeInBuf = 1 ∧
          (∀ i < ([[115]] : List (List UInt8)).length,
            o.events.count (Ev.freeArg i) = 1) ∧
          ∃ pre post, o.events = pre ++ Ev.call ([7] : List UInt8).length :: post ∧
            pre.filter Ev.isTransientFree = [] :=
  ⟨by decide,
    mdsCommand_transient_cleanup "mds.a" [[115]] [7] (MdsReply.mk (-22) [1, 2] [111])
      (by decide)⟩

end Cephfs
